import Mathlib

/-!
Verification of the question-extraction engine of `src/app.py`
(exam-practice-pdf-timer).

The extractor is embedded shallowly: Python strings become `List Char`,
the static regular expressions of the source become values of a small
regex syntax `Re`, evaluated by a backtracking matcher `matchRe` that
follows Python's `re` semantics for the constructs those patterns use
(leftmost match, greedy/lazy quantifiers, alternation tried left to
right, zero-width lookahead, `$` matching at the end of the text or just
before a final newline, character classes over ASCII).  `re.findall`,
`re.search`, `re.match` and the `^`-anchored `re.sub` calls of the
source are derived from the matcher.  All definitions are executable.

Notes on fidelity:
* `\d` and `\s` are modelled as their ASCII meaning (the inputs the
  theorems evaluate on are ASCII).
* the matcher is fuel-bounded; every starred subpattern appearing in the
  source consumes at least one character per iteration, so a fuel of
  `length + 1` is never exhausted on these patterns.
-/

/-- Character classes occurring in the source's regexes (ASCII reading). -/
inductive CC where
  | ch (c : Char)        -- a literal character
  | digit                -- \d
  | space                -- \s
  | anyDot               -- . under re.DOTALL
  | notNL                -- [^\n]
  | notNLD               -- [^\n\d]
  | delim                -- [\.:)]
  | digit14              -- [1-4]
  | spaceColon           -- [:\s]
deriving Repr, DecidableEq

/-- Python `\s` over ASCII. -/
def pySpace (c : Char) : Bool :=
  c = ' ' || c = '\t' || c = '\n' || c = '\r' || c = '\x0b' || c = '\x0c'

def CC.test : CC → Char → Bool
  | .ch c, d => d = c
  | .digit, d => d.isDigit
  | .space, d => pySpace d
  | .anyDot, _ => true
  | .notNL, d => d ≠ '\n'
  | .notNLD, d => d ≠ '\n' && !d.isDigit
  | .delim, d => d = '.' || d = ':' || d = ')'
  | .digit14, d => d = '1' || d = '2' || d = '3' || d = '4'
  | .spaceColon, d => pySpace d || d = ':'

/-- Syntax of the regex fragment used by `src/app.py`. -/
inductive Re where
  | eps
  | cls (c : CC)
  | seq (a b : Re)
  | alt (a b : Re)                 -- a|b, a tried first
  | opt (r : Re)                   -- r? (greedy)
  | starG (r : Re)                 -- r* (greedy)
  | starL (r : Re)                 -- r*? (lazy)
  | group (n : Nat) (r : Re)       -- (r), capture group n
  | look (r : Re)                  -- (?=r)
  | nlook (r : Re)                 -- (?!r)
  | dollar                         -- $ (no MULTILINE)
deriving Repr, DecidableEq

/-- Captured groups of one match: group number paired with captured text. -/
abbrev Caps := List (Nat × List Char)

/-- Result threaded through the matcher: remaining input, characters
consumed so far by the current match attempt (reversed), captures. -/
abbrev MRes := Option (List Char × List Char × Caps)

/-- Continuations of the matcher: remaining input, consumed (reversed),
captures so far. -/
abbrev MCont := List Char → List Char → Caps → MRes

/--
One fuel level of the backtracking matcher, in continuation style.
`matchGo recur re s acc caps k` tries to match `re` against a prefix of
`s`; on each way of matching it calls `k rest acc' caps'` where `rest` is
the input left over, `acc'` extends `acc` with the consumed characters
(reversed) and `caps'` records the captures; the first alternative
accepted by `k` wins, which yields Python's leftmost/greedy/lazy
preference order.  A star re-enters itself through `recur`, the matcher
at one fuel level lower, so that the recursion is structural (on the
regex here, on the fuel in `matchFuel`) and computes by kernel
reduction.
-/
def matchGo (recur : Re → List Char → List Char → Caps → MCont → MRes) :
    Re → List Char → List Char → Caps → MCont → MRes
  | .eps, s, acc, caps, k => k s acc caps
  | .cls c, s, acc, caps, k =>
      match s with
      | [] => none
      | d :: ds => if c.test d then k ds (d :: acc) caps else none
  | .seq a b, s, acc, caps, k =>
      matchGo recur a s acc caps (fun s1 a1 c1 => matchGo recur b s1 a1 c1 k)
  | .alt a b, s, acc, caps, k =>
      (matchGo recur a s acc caps k).orElse
        (fun _ => matchGo recur b s acc caps k)
  | .opt r, s, acc, caps, k =>
      (matchGo recur r s acc caps k).orElse (fun _ => k s acc caps)
  | .starG r, s, acc, caps, k =>
      (matchGo recur r s acc caps
        (fun s1 a1 c1 => recur (.starG r) s1 a1 c1 k)).orElse
      (fun _ => k s acc caps)
  | .starL r, s, acc, caps, k =>
      (k s acc caps).orElse
      (fun _ => matchGo recur r s acc caps
        (fun s1 a1 c1 => recur (.starL r) s1 a1 c1 k))
  | .group n r, s, acc, caps, k =>
      matchGo recur r s [] caps
        (fun s1 a1 c1 => k s1 (a1 ++ acc) ((n, a1.reverse) :: c1))
  | .look r, s, acc, caps, k =>
      match matchGo recur r s [] caps (fun s1 a1 c1 => some (s1, a1, c1)) with
      | some _ => k s acc caps
      | none => none
  | .nlook r, s, acc, caps, k =>
      match matchGo recur r s [] caps (fun s1 a1 c1 => some (s1, a1, c1)) with
      | some _ => none
      | none => k s acc caps
  | .dollar, s, acc, caps, k =>
      match s with
      | [] => k s acc caps
      | ['\n'] => k s acc caps
      | _ => none

/-- The matcher with a star-iteration budget: at fuel 0 a star that asks
for one more iteration simply exits the loop (its continuation is tried).
Every starred subpattern of the source consumes at least one character
per iteration, so the fuel `length + 1` used below is never exhausted. -/
def matchFuel : Nat → Re → List Char → List Char → Caps → MCont → MRes
  | 0 => fun _ s acc caps k => k s acc caps
  | fuel + 1 => matchGo (matchFuel fuel)

def matchRe (fuel : Nat) (re : Re) (s acc : List Char) (caps : Caps)
    (k : MCont) : MRes :=
  matchFuel fuel re s acc caps k

/-- Tail-recursive length with an eagerly forced accumulator, used for
the matcher's fuel (it evaluates iteratively by kernel reduction even on
long inputs, unlike `List.length`). -/
def fuelLen : List Char → Nat → Nat
  | [], n => n
  | _ :: tl, n =>
      match n with
      | 0 => fuelLen tl 1
      | m + 1 => fuelLen tl (m + 2)

theorem fuelLen_eq (l : List Char) : ∀ n, fuelLen l n = l.length + n := by
  induction l with
  | nil => intro n; simp [fuelLen]
  | cons c tl ih =>
      intro n
      cases n with
      | zero => simp [fuelLen, ih]
      | succ m => simp [fuelLen, ih]; omega

/-- r+ (greedy), as the source's `\d+`, `\s+`, `[^\n]+` etc. -/
def Re.plus (r : Re) : Re := .seq r (.starG r)

/-- A literal string, e.g. `Q.` or `Ans`. -/
def lit (s : String) : Re :=
  s.data.foldr (fun c r => Re.seq (.cls (.ch c)) r) .eps

/-- Try to match `re` at the start of `s` with the given star budget;
returns (rest, consumedRev, caps). -/
def tryMatchF (fuel : Nat) (re : Re) (s : List Char) : MRes :=
  matchRe fuel re s [] [] (fun s1 a1 c1 => some (s1, a1, c1))

/-- Try to match `re` at the start of `s`; returns (rest, consumedRev, caps). -/
def tryMatch (re : Re) (s : List Char) : MRes :=
  tryMatchF (fuelLen s 0 + 1) re s

/-- All non-overlapping matches scanning left to right (`re.findall`);
an empty match advances the scan by one character, as in Python.  The
scan fuel starts at `length + 1` and stays an upper bound for the length
of the current suffix plus one, so it also serves as the star budget of
each match attempt. -/
def findallGo (fuel : Nat) (re : Re) (s : List Char) : List Caps :=
  match fuel with
  | 0 => []
  | fuel' + 1 =>
      match tryMatchF (fuel' + 1) re s with
      | some (rest, consumed, caps) =>
          if consumed.isEmpty then
            match s with
            | [] => [caps]
            | _ :: tl => caps :: findallGo fuel' re tl
          else
            caps :: findallGo fuel' re rest
      | none =>
          match s with
          | [] => []
          | _ :: tl => findallGo fuel' re tl

/-- `re.findall` for a pattern with capture groups 1 and 2: the list of
`(group 1, group 2)` pairs, one per match. -/
def findall2 (re : Re) (s : List Char) : List (List Char × List Char) :=
  (findallGo (fuelLen s 0 + 1) re s).map
    (fun caps => (((caps.lookup 1).getD []), ((caps.lookup 2).getD [])))

/-- `re.search`: the first position whose suffix matches; groups 1 and 2. -/
def reSearchGo (fuel : Nat) (re : Re) (s : List Char) :
    Option (List Char × List Char) :=
  match fuel with
  | 0 => none
  | fuel' + 1 =>
      match tryMatchF (fuel' + 1) re s with
      | some (_, _, caps) =>
          some (((caps.lookup 1).getD []), ((caps.lookup 2).getD []))
      | none =>
          match s with
          | [] => none
          | _ :: tl => reSearchGo fuel' re tl

def reSearch2 (re : Re) (s : List Char) : Option (List Char × List Char) :=
  reSearchGo (fuelLen s 0 + 1) re s

/-- Truthiness of `re.match(p, line)` for a `^`-anchored pattern: the
pattern (written here without the `^`) must match at position 0. -/
def reMatch (re : Re) (s : List Char) : Bool :=
  (tryMatch re s).isSome

/-- `re.sub(p, '', line)` for a `^`-anchored pattern: without MULTILINE
the anchor only matches at position 0, so at most the leading match is
removed and the remainder of the line is returned unchanged. -/
def reSub (re : Re) (s : List Char) : List Char :=
  match tryMatch re s with
  | some (rest, _, _) => rest
  | none => s

/-- Right-nested sequence of regex parts. -/
def seqs (l : List Re) : Re := l.foldr .seq .eps

/-! ## The static patterns of `src/app.py`, transcribed node by node. -/

/-- `r'Q\.(\d+)\s+(.*?)(?=Q\.\d+|Ans\s*\d+|$)'` (app.py line 40, DOTALL). -/
def pat1 : Re := seqs
  [lit "Q.", .group 1 (.plus (.cls .digit)), .plus (.cls .space),
   .group 2 (.starL (.cls .anyDot)),
   .look (.alt (seqs [lit "Q.", .plus (.cls .digit)])
          (.alt (seqs [lit "Ans", .starG (.cls .space), .plus (.cls .digit)])
           .dollar))]

/-- `r'Q(\d+)\.\s+(.*?)(?=Q\d+\.|Ans\s*\d+|$)'` (app.py line 41, DOTALL). -/
def pat2 : Re := seqs
  [lit "Q", .group 1 (.plus (.cls .digit)), lit ".", .plus (.cls .space),
   .group 2 (.starL (.cls .anyDot)),
   .look (.alt (seqs [lit "Q", .plus (.cls .digit), lit "."])
          (.alt (seqs [lit "Ans", .starG (.cls .space), .plus (.cls .digit)])
           .dollar))]

/-- `r'Question\s+(\d+)(?:.*?\n)(.*?)(?=Question\s+\d+|Ans|$)'`
(app.py line 42, DOTALL). -/
def pat3 : Re := seqs
  [lit "Question", .plus (.cls .space), .group 1 (.plus (.cls .digit)),
   .starL (.cls .anyDot), .cls (.ch '\n'),
   .group 2 (.starL (.cls .anyDot)),
   .look (.alt (seqs [lit "Question", .plus (.cls .space), .plus (.cls .digit)])
          (.alt (lit "Ans") .dollar))]

/-- The cascade pattern list of app.py lines 39-43, in source order. -/
def patterns : List Re := [pat1, pat2, pat3]

/-- `r'(.*?)\s*Ans\s*[:\s]*(.*)'` (app.py line 60, DOTALL). -/
def ansRe : Re := seqs
  [.group 1 (.starL (.cls .anyDot)), .starG (.cls .space), lit "Ans",
   .starG (.cls .space), .starG (.cls .spaceColon),
   .group 2 (.starG (.cls .anyDot))]

/-- `r'Ans\s*(\d+)[\.:)]\s*([^\n\d]+(?:\n(?!Ans\s*\d)[^\n]+)*)'`
(app.py line 72). -/
def optPatA : Re := seqs
  [lit "Ans", .starG (.cls .space), .group 1 (.plus (.cls .digit)),
   .cls .delim, .starG (.cls .space),
   .group 2 (seqs
     [.plus (.cls .notNLD),
      .starG (seqs
        [.cls (.ch '\n'),
         .nlook (seqs [lit "Ans", .starG (.cls .space), .cls .digit]),
         .plus (.cls .notNL)])])]

/-- `r'(\d+)[\.:)]\s*([^\n\d]+(?:\n(?!\d+[\.:)])[^\n]+)*)'`
(app.py line 73). -/
def optPatB : Re := seqs
  [.group 1 (.plus (.cls .digit)), .cls .delim, .starG (.cls .space),
   .group 2 (seqs
     [.plus (.cls .notNLD),
      .starG (seqs
        [.cls (.ch '\n'),
         .nlook (seqs [.plus (.cls .digit), .cls .delim]),
         .plus (.cls .notNL)])])]

/-- The option pattern list of app.py lines 71-74, in source order. -/
def option_patterns : List Re := [optPatA, optPatB]

/-- `r'^Q\.?\s*\d+'` (app.py line 118; the `^` anchor is realised by
matching at position 0 only). -/
def qstartRe1 : Re := seqs
  [lit "Q", .opt (.cls (.ch '.')), .starG (.cls .space), .plus (.cls .digit)]

/-- `r'^Question\s+\d+'` (app.py line 118). -/
def qstartRe2 : Re := seqs
  [lit "Question", .plus (.cls .space), .plus (.cls .digit)]

/-- `r'^[1-4][\.:)]'` (app.py line 128). -/
def optlineRe1 : Re := seqs [.cls .digit14, .cls .delim]

/-- `r'^Ans\s*[1-4]'` (app.py line 128). -/
def optlineRe2 : Re := seqs [lit "Ans", .starG (.cls .space), .cls .digit14]

/-- `r'^Q\.?\s*\d+\s*'` (app.py line 125). -/
def subQRe : Re := seqs
  [lit "Q", .opt (.cls (.ch '.')), .starG (.cls .space), .plus (.cls .digit),
   .starG (.cls .space)]

/-- `r'^(?:Ans\s*)?[1-4][\.:)]\s*'` (app.py line 129). -/
def subOptRe : Re := seqs
  [.opt (.seq (lit "Ans") (.starG (.cls .space))), .cls .digit14, .cls .delim,
   .starG (.cls .space)]

/-! ## String helpers mirroring the Python string methods used. -/

/-- Python `str.strip()` (ASCII whitespace). -/
def pyStrip (l : List Char) : List Char :=
  ((l.dropWhile pySpace).reverse.dropWhile pySpace).reverse

/-- Python `str.replace('\n', ' ')`. -/
def collapseNL (l : List Char) : List Char :=
  l.map (fun c => if c = '\n' then ' ' else c)

/-- Python `str.split('\n', 1)`: text before the first newline, and the
text after it when a newline exists. -/
def splitOnce (l : List Char) : List Char × Option (List Char) :=
  match l.span (fun c => c ≠ '\n') with
  | (a, []) => (a, none)
  | (a, _ :: rest) => (a, some rest)

/-! ## The extractor's data model. -/

/-- One extracted question record: the `{'question': ..., 'options': ...}`
dict built by app.py. -/
structure Question where
  question : List Char
  options : List (List Char)
deriving DecidableEq, Repr

/-- The fixed placeholder of app.py lines 95-98, returned when the
cascade path keeps no record. -/
def noQuestionsPlaceholder : Question :=
  { question := ("No questions could be extracted from this PDF. Please ensure the PDF contains text (not images) and follows standard question format.").data
    options := [("Try another PDF").data, ("Check PDF format").data,
                ("Contact support").data, ("Go back").data] }

/-- The placeholder of app.py lines 104-107, returned when reading the
source document raised, with the failure reason interpolated. -/
def errorPlaceholder (e : List Char) : Question :=
  { question := ("Error processing PDF: ").data ++ e
    options := [("Try again").data, ("Upload different file").data,
                ("Check file format").data, ("Go back").data] }

/-! ## The line-scan fallback extractor (app.py lines 109-142). -/

/-- One pass of the `for line in lines` loop of `extract_by_splitting`,
threading Python's `current_question` (None or a string; Python truthiness
is false for both None and the empty string), `current_options` and the
accumulated `questions` list. -/
def splitGo : List (List Char) → Option (List Char) → List (List Char) →
    List Question → List Question
  | [], cq, co, qs =>
      -- app.py lines 136-140
      match cq with
      | some q =>
          if q ≠ [] ∧ co ≠ [] then qs ++ [⟨q, co.take 4⟩] else qs
      | none => qs
  | l :: ls, cq, co, qs =>
      let line := pyStrip l
      if reMatch qstartRe1 line || reMatch qstartRe2 line then
        -- app.py lines 118-126
        let qs' :=
          match cq with
          | some q => if q ≠ [] ∧ co ≠ [] then qs ++ [⟨q, co.take 4⟩] else qs
          | none => qs
        splitGo ls (some (reSub subQRe line)) [] qs'
      else if reMatch optlineRe1 line || reMatch optlineRe2 line then
        -- app.py lines 128-131
        let ot := reSub subOptRe line
        if ot ≠ [] then splitGo ls cq (co ++ [ot]) qs
        else splitGo ls cq co qs
      else
        -- app.py lines 133-134
        match cq with
        | some q =>
            if q ≠ [] ∧ co = [] then splitGo ls (some (q ++ ' ' :: line)) co qs
            else splitGo ls cq co qs
        | none => splitGo ls cq co qs

/-- `extract_by_splitting(text)` of app.py lines 109-142. -/
def extract_by_splitting (text : List Char) : List Question :=
  splitGo (text.splitOn '\n') none [] []

/-! ## The pattern-cascade path (app.py lines 38-100). -/

/-- The `for pattern in patterns` loop of app.py lines 45-49: `matches`
is reassigned each iteration and the loop breaks at the first pattern
whose `findall` result is non-empty, so afterwards `matches` holds the
first non-empty result, or the last (empty) one. -/
def cascadeLoop : List Re → List Char → List (List Char × List Char)
  | [], _ => []
  | [p], t => findall2 p t
  | p :: ps, t =>
      let m := findall2 p t
      if m ≠ [] then m else cascadeLoop ps t

/-- app.py lines 57-68: strip the captured region, split it into the
question-text and options-text candidates at the `Ans` marker found by
`re.search`, or else at the first newline. -/
def regionTexts (m : List Char × List Char) : List Char × List Char :=
  let content := pyStrip m.2
  match reSearch2 ansRe content with
  | some (g1, g2) => (pyStrip g1, pyStrip g2)
  | none =>
      match splitOnce content with
      | (first, some rest) => (pyStrip first, pyStrip rest)
      | (first, none) => (pyStrip first, [])

/-- The `for opt_pattern in option_patterns` loop of app.py lines 76-80:
the first option pattern with at least 3 matches supplies the options,
each stripped and with newlines collapsed to spaces; otherwise `options`
keeps its initial value `[]`. -/
def optLoop : List Re → List Char → List (List Char)
  | [], _ => []
  | p :: ps, ot =>
      let m := findall2 p ot
      if m ≠ [] ∧ 3 ≤ m.length then
        m.map (fun x => collapseNL (pyStrip x.2))
      else optLoop ps ot

/-- app.py lines 70-80 applied to the options-text candidate. -/
def extractOptions (ot : List Char) : List (List Char) :=
  optLoop option_patterns ot

/-- app.py line 84: bodies longer than 800 characters are cut to 800
with `...` appended. -/
def truncateBody (qt : List Char) : List Char :=
  if 800 < qt.length then qt.take 800 ++ ("...").data else qt

/-- app.py lines 56-89 for one `findall` match: the acceptance filter and
the record construction.  (The `len(match) == 2` guard of line 56 always
holds, both patterns having exactly two groups.)  Dropped regions yield
`none`. -/
def processMatch (m : List Char × List Char) : Option Question :=
  let question_text := (regionTexts m).1
  let options := extractOptions (regionTexts m).2
  if question_text ≠ [] ∧ 10 < question_text.length ∧ 2 ≤ options.length then
    some ⟨truncateBody question_text, options.take 4⟩
  else none

/-- The `for match in matches` loop of app.py lines 55-92, threading the
`questions` accumulator; the loop breaks once 100 records are collected
(lines 91-92, tested right after appending). -/
def processLoop : List (List Char × List Char) → List Question → List Question
  | [], qs => qs
  | m :: ms, qs =>
      match processMatch m with
      | none => processLoop ms qs
      | some q =>
          if 100 ≤ (qs ++ [q]).length then qs ++ [q]
          else processLoop ms (qs ++ [q])

/-- app.py lines 38-100 applied to the already-assembled page text
`full_text`: the cascade selection, the fallback branch with its early
`return questions[:100]` (lines 51-53), the match-processing loop and
the empty-result placeholder (lines 94-98). -/
def extract_questions_from_text (full_text : List Char) : List Question :=
  let found := cascadeLoop patterns full_text
  if found = [] then
    (extract_by_splitting full_text).take 100
  else
    let questions := processLoop found []
    if questions = [] then [noQuestionsPlaceholder] else questions

/-- `extract_questions_from_pdf` of app.py lines 25-107 at the boundary
the claims describe: a successful read hands the concatenated page text
to the extraction body, a read failure is absorbed by the `except` of
lines 102-107 into the error placeholder.  The function is total: no
exception reaches the caller. -/
def extract_questions_from_pdf : Except (List Char) (List Char) → List Question
  | .error e => [errorPlaceholder e]
  | .ok t => extract_questions_from_text t

/-! ## Specification-side formulations used by the theorems. -/

/-- Scan state of the line-scan fallback: `current_question` (None or a
string) and `current_options`. -/
abbrev ScanSt := Option (List Char) × List (List Char)

/-- Python truthiness of `current_question`: false for None and for the
empty string. -/
def cqTruthy : Option (List Char) → Bool
  | none => false
  | some q => !q.isEmpty

/-- One per-line transition of the fallback scan, presented as a pure
state-transition function returning the successor state and the record
emitted by this line (if any).  The rules are those of app.py lines
115-134: a question-start line first emits the pending record when
`current_question` is truthy and options were collected, then resets the
state; an option line appends its marker-stripped text when non-empty; a
body continuation only happens while no option has been collected yet. -/
def lineStep (st : ScanSt) (l : List Char) : ScanSt × Option Question :=
  let line := pyStrip l
  if reMatch qstartRe1 line || reMatch qstartRe2 line then
    ((some (reSub subQRe line), []),
      if cqTruthy st.1 ∧ st.2 ≠ [] then
        some ⟨st.1.getD [], st.2.take 4⟩
      else none)
  else if reMatch optlineRe1 line || reMatch optlineRe2 line then
    let ot := reSub subOptRe line
    if ot ≠ [] then ((st.1, st.2 ++ [ot]), none) else (st, none)
  else if cqTruthy st.1 ∧ st.2 = [] then
    ((some (st.1.getD [] ++ ' ' :: line), st.2), none)
  else (st, none)

/-- The record emitted at end of input (app.py lines 136-140). -/
def finalEmit (st : ScanSt) : List Question :=
  if cqTruthy st.1 ∧ st.2 ≠ [] then [⟨st.1.getD [], st.2.take 4⟩] else []

/-- Run the per-line transition function over the lines, concatenating
the emitted records in order. -/
def splitMachine : List (List Char) → ScanSt → List Question
  | [], st => finalEmit st
  | l :: ls, st =>
      match lineStep st l with
      | (st', some q) => q :: splitMachine ls st'
      | (st', none) => splitMachine ls st'

/-- The fallback extractor presented as the state machine above. -/
def splitSpec (text : List Char) : List Question :=
  splitMachine (text.splitOn '\n') (none, [])

/-- What the claim's words prescribe for resetting `current_body` at a
`Question N` start line: the `Question`-number marker itself is stripped
(pattern `Question\s+\d+\s*`).  The code instead applies only the
`Q\.?\s*\d+\s*` substitution, which leaves such lines unchanged. -/
def subQuestionClaimRe : Re := seqs
  [lit "Question", .plus (.cls .space), .plus (.cls .digit),
   .starG (.cls .space)]

/-- Marker stripping as the claim reads: whichever question-start marker
matched is removed. -/
def stripStartClaim (line : List Char) : List Char :=
  if reMatch qstartRe1 line then reSub subQRe line
  else reSub subQuestionClaimRe line

/-- The fallback scan exactly as the claim states it, differing from the
code only in resetting `current_body` to the marker-stripped remainder
for both question-start forms. -/
def splitClaimGo : List (List Char) → Option (List Char) → List (List Char) →
    List Question → List Question
  | [], cq, co, qs =>
      if cqTruthy cq ∧ co ≠ [] then qs ++ [⟨cq.getD [], co.take 4⟩] else qs
  | l :: ls, cq, co, qs =>
      let line := pyStrip l
      if reMatch qstartRe1 line || reMatch qstartRe2 line then
        let qs' :=
          if cqTruthy cq ∧ co ≠ [] then qs ++ [⟨cq.getD [], co.take 4⟩] else qs
        splitClaimGo ls (some (stripStartClaim line)) [] qs'
      else if reMatch optlineRe1 line || reMatch optlineRe2 line then
        let ot := reSub subOptRe line
        if ot ≠ [] then splitClaimGo ls cq (co ++ [ot]) qs
        else splitClaimGo ls cq co qs
      else if cqTruthy cq ∧ co = [] then
        splitClaimGo ls (some (cq.getD [] ++ ' ' :: line)) co qs
      else splitClaimGo ls cq co qs

/-- The fallback extractor as described word-by-word by the claim. -/
def splitClaim (text : List Char) : List Question :=
  splitClaimGo (text.splitOn '\n') none [] []

/-- The option-extraction selection as the claim describes it: the first
option pattern, in listed order, with at least 3 matches. -/
def firstConfidentOptionPattern (ot : List Char) : Option Re :=
  option_patterns.find? (fun p => 3 ≤ (findall2 p ot).length)

/-- The cascade selection as the claim describes it: the first boundary
pattern, in listed order, whose match count exceeds the threshold 0. -/
def firstConfidentPattern (t : List Char) : Option Re :=
  patterns.find? (fun p => 0 < (findall2 p t).length)

/-! ## Helper lemmas shared by the claim theorems. -/

theorem cascadeLoop_unfold (t : List Char) :
    cascadeLoop patterns t =
      if findall2 pat1 t ≠ [] then findall2 pat1 t
      else if findall2 pat2 t ≠ [] then findall2 pat2 t
      else findall2 pat3 t := rfl

theorem extract_eq_fallback_of_empty (t : List Char)
    (h : cascadeLoop patterns t = []) :
    extract_questions_from_text t = (extract_by_splitting t).take 100 := by
  unfold extract_questions_from_text
  simp [h]

theorem firstConfidentPattern_none_iff (t : List Char) :
    firstConfidentPattern t = none ↔
      (findall2 pat1 t = [] ∧ findall2 pat2 t = [] ∧ findall2 pat3 t = []) := by
  unfold firstConfidentPattern patterns
  simp [List.find?_eq_none, List.length_pos]

theorem cascadeLoop_eq_firstConfident (t : List Char) :
    cascadeLoop patterns t =
      match firstConfidentPattern t with
      | some p => findall2 p t
      | none => [] := by
  rw [cascadeLoop_unfold]
  unfold firstConfidentPattern patterns
  by_cases h1 : findall2 pat1 t = []
  · by_cases h2 : findall2 pat2 t = []
    · by_cases h3 : findall2 pat3 t = []
      · simp [h1, h2, h3, List.find?, List.length_pos]
      · simp [h1, h2, h3, List.find?, List.length_pos,
          List.length_pos_iff_ne_nil]
    · simp [h1, h2, List.find?, List.length_pos, List.length_pos_iff_ne_nil]
  · simp [h1, List.find?, List.length_pos, List.length_pos_iff_ne_nil]

/-! ## Claim theorems. -/

/-- Claim C1 (code_bug evidence): the claim says the extraction entry
point returns a QuestionSet of length at least 1 for every input text,
including the empty string.  Evaluating the code at the empty input
shows the opposite: the cascade finds no pattern, the fallback produces
no record, and the early `return questions[:100]` of app.py line 53
bypasses the placeholder of lines 94-98, so the caller receives the
empty list. -/
theorem extract_empty_input_returns_empty_set :
    extract_questions_from_pdf (.ok ("").data) = [] ∧
    ¬ 1 ≤ (extract_questions_from_pdf (.ok ("").data)).length := by
  constructor
  · decide
  · decide

/-- Claim C2 (code_bug evidence): on an input where both the cascade
(`findall` empty for all three patterns) and the line-scan fallback
yield zero records, the claim says the result is the length-1 diagnostic
placeholder; the code instead returns the empty list, because the
fallback branch returns before the placeholder check of app.py line 94
is reached. -/
theorem extract_no_records_skips_placeholder :
    cascadeLoop patterns ("hello world").data = [] ∧
    extract_by_splitting ("hello world").data = [] ∧
    extract_questions_from_pdf (.ok (("hello world").data)) = [] := by
  refine ⟨by decide, by decide, by decide⟩

/-- Claim C3: the cascade tries the three boundary patterns in their
listed order and selects the first one whose match count exceeds the
confidence threshold (strictly more than 0 matches, these patterns
capturing the body inline); order, not match count, is the tie-break.
When no pattern clears the threshold the extractor routes to the
line-scan fallback (a total function - no exception is modelled because
none can be raised by this branch). -/
theorem cascade_order_and_fallback_routing (t : List Char) :
    (cascadeLoop patterns t =
      match firstConfidentPattern t with
      | some p => findall2 p t
      | none => []) ∧
    (firstConfidentPattern t = none →
      extract_questions_from_text t = (extract_by_splitting t).take 100) := by
  refine ⟨cascadeLoop_eq_firstConfident t, fun h => ?_⟩
  apply extract_eq_fallback_of_empty
  rw [cascadeLoop_eq_firstConfident t, h]

/-- Witness for C3 at the concrete input "hello": no pattern is
confident there, and the result is the fallback output capped at 100. -/
theorem cascade_order_and_fallback_routing_witness :
    (cascadeLoop patterns ("hello").data =
      match firstConfidentPattern ("hello").data with
      | some p => findall2 p ("hello").data
      | none => []) ∧
    (extract_questions_from_text ("hello").data =
      (extract_by_splitting ("hello").data).take 100) :=
  ⟨(cascade_order_and_fallback_routing ("hello").data).1,
   (cascade_order_and_fallback_routing ("hello").data).2 (by decide)⟩

/-- Claim C4: when no cascade pattern exceeds its confidence threshold
(all three `findall` results are empty), the extractor's result is
exactly the line-scan fallback's output truncated to at most 100
records (app.py lines 51-53). -/
theorem fallback_completeness (t : List Char)
    (h : ∀ p ∈ patterns, findall2 p t = []) :
    extract_questions_from_text t = (extract_by_splitting t).take 100 := by
  apply extract_eq_fallback_of_empty
  rw [cascadeLoop_unfold]
  simp [h pat1 (by simp [patterns]), h pat2 (by simp [patterns]),
    h pat3 (by simp [patterns])]

/-- Witness for C4 at a concrete fallback-formatted input. -/
theorem fallback_completeness_witness :
    (∀ p ∈ patterns,
      findall2 p ("Q 1 what is love\n1.baby dont hurt me\n2.no more").data = []) ∧
    extract_questions_from_text
        ("Q 1 what is love\n1.baby dont hurt me\n2.no more").data =
      (extract_by_splitting
        ("Q 1 what is love\n1.baby dont hurt me\n2.no more").data).take 100 :=
  ⟨by decide,
   fallback_completeness ("Q 1 what is love\n1.baby dont hurt me\n2.no more").data
     (by decide)⟩

theorem splitGo_cons (l : List Char) (ls : List (List Char))
    (cq : Option (List Char)) (co : List (List Char)) (qs : List Question) :
    splitGo (l :: ls) cq co qs =
      match lineStep (cq, co) l with
      | (st', some q) => splitGo ls st'.1 st'.2 (qs ++ [q])
      | (st', none) => splitGo ls st'.1 st'.2 qs := by
  by_cases h1 : (reMatch qstartRe1 (pyStrip l) || reMatch qstartRe2 (pyStrip l)) = true
  · cases cq with
    | none => simp [splitGo, lineStep, h1, cqTruthy]
    | some q =>
        by_cases hq : q = []
        · simp [splitGo, lineStep, h1, cqTruthy, hq]
        · by_cases hco : co = []
          · simp [splitGo, lineStep, h1, cqTruthy, hq, hco]
          · simp [splitGo, lineStep, h1, cqTruthy, hq, hco]
  · by_cases h2 : (reMatch optlineRe1 (pyStrip l) || reMatch optlineRe2 (pyStrip l)) = true
    · by_cases hot : reSub subOptRe (pyStrip l) = []
      · simp [splitGo, lineStep, h1, h2, hot]
      · simp [splitGo, lineStep, h1, h2, hot]
    · cases cq with
      | none => simp [splitGo, lineStep, h1, h2, cqTruthy]
      | some q =>
          by_cases hq : q = []
          · simp [splitGo, lineStep, h1, h2, cqTruthy, hq]
          · by_cases hco : co = []
            · simp [splitGo, lineStep, h1, h2, cqTruthy, hq, hco]
            · simp [splitGo, lineStep, h1, h2, cqTruthy, hq, hco]

theorem splitGo_eq_machine (ls : List (List Char)) :
    ∀ (cq : Option (List Char)) (co : List (List Char)) (qs : List Question),
    splitGo ls cq co qs = qs ++ splitMachine ls (cq, co) := by
  induction ls with
  | nil =>
      intro cq co qs
      cases cq with
      | none => simp [splitGo, splitMachine, finalEmit, cqTruthy]
      | some q =>
          by_cases hq : q = []
          · simp [splitGo, splitMachine, finalEmit, cqTruthy, hq]
          · by_cases hco : co = []
            · simp [splitGo, splitMachine, finalEmit, cqTruthy, hq, hco]
            · simp [splitGo, splitMachine, finalEmit, cqTruthy, hq, hco]
  | cons l ls ih =>
      intro cq co qs
      rw [splitGo_cons]
      rcases hstep : lineStep (cq, co) l with ⟨st', em⟩
      cases em with
      | some q =>
          simp only [splitMachine, hstep, ih]
          simp
      | none =>
          simp only [splitMachine, hstep, ih]

/-- Claim C5 (amended): the line-scan fallback extractor is exactly the
per-line state machine with state `(current_body, current_options)` and
the transition rules of app.py lines 115-134 - question-start lines
emit the pending `(current_body, current_options capped at 4)` record
when the body is truthy and options exist, then reset; option-marker
lines append the text left after the
`(Ans )? digit delimiter whitespace` substitution when non-empty (for
an `Ans digit` line without a delimiter the substitution leaves the
line unchanged); other lines extend a truthy body only while no option
has been collected; one final record is emitted at end of input.  The
reset stores the result of the `Q\.?\s*\d+\s*` substitution, which
strips `Q`-number markers but leaves a `Question N` line unchanged
(the divergence forced by the counterexample). -/
theorem fallback_scan_is_line_state_machine (t : List Char) :
    extract_by_splitting t = splitSpec t := by
  unfold extract_by_splitting splitSpec
  simpa using splitGo_eq_machine (t.splitOn '\n') none [] []

/-- Counterexample for claim C5 as stated: on a `Question N` start line
the code does not reset `current_body` to the marker-stripped remainder;
the emitted body keeps the `Question 1` marker, while the claim's rules
(`splitClaim`) strip it. -/
theorem fallback_question_marker_not_stripped :
    extract_by_splitting ("Question 1 What is it\n1.a\n2.b").data =
      [⟨("Question 1 What is it").data, [['a'], ['b']]⟩] ∧
    splitClaim ("Question 1 What is it\n1.a\n2.b").data =
      [⟨("What is it").data, [['a'], ['b']]⟩] ∧
    extract_by_splitting ("Question 1 What is it\n1.a\n2.b").data ≠
      splitClaim ("Question 1 What is it\n1.a\n2.b").data := by
  refine ⟨by decide, by decide, by decide⟩

theorem processLoop_eq_take (ms : List (List Char × List Char)) :
    ∀ qs : List Question, qs.length < 100 →
    processLoop ms qs = (qs ++ ms.filterMap processMatch).take 100 := by
  induction ms with
  | nil =>
      intro qs h
      simp [processLoop, List.take_of_length_le (Nat.le_of_lt h)]
  | cons m ms ih =>
      intro qs h
      cases hm : processMatch m with
      | none =>
          rw [List.filterMap_cons_none hm]
          simpa [processLoop, hm] using ih qs h
      | some q =>
          rw [List.filterMap_cons_some hm]
          simp only [processLoop, hm]
          by_cases hlen : 100 ≤ (qs ++ [q]).length
          · have h100 : (qs ++ [q]).length = 100 := by
              simp only [List.length_append, List.length_singleton] at hlen ⊢
              omega
            rw [if_pos hlen]
            have hsplit : qs ++ q :: ms.filterMap processMatch =
                (qs ++ [q]) ++ ms.filterMap processMatch := by simp
            rw [hsplit, List.take_append_of_le_length (by omega),
              List.take_of_length_le (by omega)]
          · rw [if_neg hlen]
            have hlt : (qs ++ [q]).length < 100 := by omega
            rw [ih (qs ++ [q]) hlt]
            simp

/-- Claim C6 (amended): on the pattern-cascade path a captured region's
record appears in the output exactly when its extracted body is
non-empty with length strictly greater than 10, at least 2 options were
extracted, and it is among the first 100 regions passing that filter:
the output is the filtered region list truncated to 100 records (and
the fixed placeholder when no region passes).  A failing region
contributes nothing. -/
theorem cascade_output_is_filtered_regions_capped (t : List Char)
    (h : cascadeLoop patterns t ≠ []) :
    extract_questions_from_text t =
      if ((cascadeLoop patterns t).filterMap processMatch) = []
      then [noQuestionsPlaceholder]
      else ((cascadeLoop patterns t).filterMap processMatch).take 100 := by
  unfold extract_questions_from_text
  rw [if_neg h, processLoop_eq_take _ [] (by simp), List.nil_append]
  by_cases hp : (cascadeLoop patterns t).filterMap processMatch = []
  · simp [hp]
  · have hne : ((cascadeLoop patterns t).filterMap processMatch).take 100 ≠ [] := by
      simp [List.take_eq_nil_iff, hp]
    simp [hp, hne]

/-- Witness for the amended C6 at a concrete cascade-formatted input. -/
theorem cascade_output_is_filtered_regions_capped_witness :
    cascadeLoop patterns ("Q.7 what is a group\n1.set\n2.op\n3.axioms").data ≠ [] ∧
    extract_questions_from_text ("Q.7 what is a group\n1.set\n2.op\n3.axioms").data =
      (if ((cascadeLoop patterns
              ("Q.7 what is a group\n1.set\n2.op\n3.axioms").data).filterMap
              processMatch) = []
       then [noQuestionsPlaceholder]
       else ((cascadeLoop patterns
              ("Q.7 what is a group\n1.set\n2.op\n3.axioms").data).filterMap
              processMatch).take 100) :=
  ⟨by decide,
   cascade_output_is_filtered_regions_capped
     ("Q.7 what is a group\n1.set\n2.op\n3.axioms").data (by decide)⟩

/-- A document block that the first cascade pattern matches and whose
region passes the acceptance filter (body of 11 characters, 3 options). -/
def capBlock : List Char := ("Q.1 abcdefghijk\n1.a\n2.b\n3.c\n").data

/-- 101 such blocks: 101 captured regions, all passing the filter. -/
def capText : List Char := (List.replicate 101 capBlock).flatten

set_option maxRecDepth 1000000 in
set_option maxHeartbeats 4000000 in
/-- Counterexample for claim C6 as stated: on `capText` all 101 captured
regions pass the acceptance filter (non-empty body longer than 10,
at least 2 options), yet only 100 records are emitted, because the loop
of app.py lines 55-92 breaks once 100 records are collected.  So
"emitted if and only if the region passes the filter" fails: the 101st
passing region is not emitted. -/
theorem cascade_filter_iff_fails_beyond_cap :
    ((cascadeLoop patterns capText).filterMap processMatch).length = 101 ∧
    (extract_questions_from_text capText).length = 100 := by
  refine ⟨by decide, by decide⟩

theorem truncateBody_length_le (qt : List Char) :
    (truncateBody qt).length ≤ 803 := by
  unfold truncateBody
  by_cases h : 800 < qt.length
  · rw [if_pos h]
    have h3 : (("...").data).length = 3 := by decide
    simp only [List.length_append, List.length_take, h3]
    omega
  · rw [if_neg h]
    omega

theorem processMatch_some (m : List Char × List Char) (q : Question)
    (h : processMatch m = some q) :
    q = ⟨truncateBody (regionTexts m).1,
         (extractOptions (regionTexts m).2).take 4⟩ := by
  simp only [processMatch] at h
  split at h
  · exact (Option.some.injEq _ _ ▸ h).symm
  · exact absurd h (by simp)

/-- Claim C7 (amended): every record emitted on the pattern-cascade path
has its body bounded by 803 characters: the stored body is exactly
`truncateBody` of the extracted question text, i.e. cut to its first 800
characters with the three-character marker "..." appended when longer
than 800 characters, and left uncut otherwise.  Records produced by the
line-scan fallback path are not truncated (the counterexample exhibits
an 810-character fallback body), so the claim's bound does not hold for
every record of the extractor. -/
theorem cascade_body_truncated_to_803 (m : List Char × List Char)
    (q : Question) (h : processMatch m = some q) :
    q.question = truncateBody (regionTexts m).1 ∧ q.question.length ≤ 803 := by
  rw [processMatch_some m q h]
  exact ⟨rfl, truncateBody_length_le _⟩

/-- Witness input for the amended C7: one cascade region. -/
def c7m : List Char × List Char :=
  (("7").data, ("what is the meaning of life\n1.forty two\n2.nothing\n3.cake").data)

/-- The record the code emits for `c7m`. -/
def c7q : Question :=
  ⟨("what is the meaning of life").data,
   [("forty two").data, ("nothing").data, ("cake").data]⟩

/-- Witness for the amended C7 at a concrete region. -/
theorem cascade_body_truncated_to_803_witness :
    processMatch c7m = some c7q ∧
    (c7q.question = truncateBody (regionTexts c7m).1 ∧
     c7q.question.length ≤ 803) :=
  ⟨by decide, cascade_body_truncated_to_803 c7m c7q (by decide)⟩

/-- A text the cascade cannot match ("Q 1" has neither `Q.` nor `Q1.`
nor `Question`) whose fallback question collects an 810-character body
from the start line. -/
def longBodyText : List Char :=
  ("Q 1 ").data ++ List.replicate 810 'a' ++ ("\n1.x\n2.y").data

set_option maxRecDepth 1000000 in
set_option maxHeartbeats 1000000 in
/-- Counterexample for claim C7 as stated: on `longBodyText` the
extractor takes the fallback path, which applies no truncation, and
returns a single record whose body has 810 characters - more than the
claimed bound of 803. -/
theorem fallback_body_exceeds_length_bound :
    ((extract_questions_from_text longBodyText).map
      (fun q => q.question.length)) = [810] ∧
    ((extract_questions_from_text longBodyText).all
      (fun q => q.question.length ≤ 803)) = false := by
  refine ⟨by decide, by decide⟩

theorem processMatch_options_le_four (m : List Char × List Char)
    (q : Question) (h : processMatch m = some q) : q.options.length ≤ 4 := by
  rw [processMatch_some m q h]
  exact List.length_take_le _ _

theorem processLoop_mem_imp (P : Question → Prop)
    (hP : ∀ m q, processMatch m = some q → P q) :
    ∀ (ms : List (List Char × List Char)) (qs : List Question),
      (∀ q ∈ qs, P q) → ∀ q ∈ processLoop ms qs, P q := by
  intro ms
  induction ms with
  | nil =>
      intro qs hqs q hq
      simp only [processLoop] at hq
      exact hqs q hq
  | cons m ms ih =>
      intro qs hqs q hq
      simp only [processLoop] at hq
      rcases hm : processMatch m with _ | q0 <;> simp only [hm] at hq
      · exact ih qs hqs q hq
      · have hqs' : ∀ q ∈ qs ++ [q0], P q := by
          intro x hx
          rcases List.mem_append.mp hx with hx | hx
          · exact hqs x hx
          · rw [List.mem_singleton.mp hx]
            exact hP m q0 hm
        split at hq
        · exact hqs' q hq
        · exact ih (qs ++ [q0]) hqs' q hq

theorem lineStep_snd (st : ScanSt) (l : List Char) :
    (lineStep st l).2 = none ∨
      ((lineStep st l).2 = some ⟨st.1.getD [], st.2.take 4⟩ ∧ st.2 ≠ []) := by
  simp only [lineStep]
  by_cases h1 : (reMatch qstartRe1 (pyStrip l) || reMatch qstartRe2 (pyStrip l)) = true
  · rw [if_pos h1]
    by_cases hc : cqTruthy st.1 = true ∧ st.2 ≠ []
    · rw [if_pos hc]
      exact Or.inr ⟨rfl, hc.2⟩
    · rw [if_neg hc]
      exact Or.inl rfl
  · rw [if_neg h1]
    by_cases h2 : (reMatch optlineRe1 (pyStrip l) || reMatch optlineRe2 (pyStrip l)) = true
    · rw [if_pos h2]
      by_cases hot : reSub subOptRe (pyStrip l) ≠ []
      · rw [if_pos hot]
        exact Or.inl rfl
      · rw [if_neg hot]
        exact Or.inl rfl
    · rw [if_neg h2]
      by_cases hcq : cqTruthy st.1 = true ∧ st.2 = []
      · rw [if_pos hcq]
        exact Or.inl rfl
      · rw [if_neg hcq]
        exact Or.inl rfl

theorem take_four_bounds (co : List (List Char)) (h : co ≠ []) :
    1 ≤ (co.take 4).length ∧ (co.take 4).length ≤ 4 := by
  refine ⟨?_, List.length_take_le _ _⟩
  have hne : co.take 4 ≠ [] := by
    simp [List.take_eq_nil_iff, h]
  exact List.length_pos.mpr hne

theorem lineStep_emit_bounds (st : ScanSt) (l : List Char) (st' : ScanSt)
    (q : Question) (h : lineStep st l = (st', some q)) :
    1 ≤ q.options.length ∧ q.options.length ≤ 4 := by
  have hsnd : (lineStep st l).2 = some q := by rw [h]
  rcases lineStep_snd st l with hn | ⟨he, hne⟩
  · rw [hn] at hsnd
    exact absurd hsnd (by simp)
  · rw [he] at hsnd
    rw [← Option.some.injEq _ _ |>.mp hsnd]
    exact take_four_bounds st.2 hne

theorem finalEmit_bounds (st : ScanSt) (q : Question) (h : q ∈ finalEmit st) :
    1 ≤ q.options.length ∧ q.options.length ≤ 4 := by
  unfold finalEmit at h
  split at h
  case isTrue hc =>
    rw [List.mem_singleton.mp h]
    exact take_four_bounds st.2 hc.2
  case isFalse => exact absurd h (by simp)

theorem splitMachine_bounds (ls : List (List Char)) :
    ∀ (st : ScanSt) (q : Question), q ∈ splitMachine ls st →
      1 ≤ q.options.length ∧ q.options.length ≤ 4 := by
  induction ls with
  | nil =>
      intro st q hq
      exact finalEmit_bounds st q (by simpa [splitMachine] using hq)
  | cons l ls ih =>
      intro st q hq
      simp only [splitMachine] at hq
      rcases hstep : lineStep st l with ⟨st', em⟩
      rw [hstep] at hq
      cases em with
      | some q0 =>
          simp only [List.mem_cons] at hq
          rcases hq with rfl | hq
          · exact lineStep_emit_bounds st l st' q hstep
          · exact ih st' q hq
      | none => exact ih st' q hq

theorem extract_by_splitting_eq_machine (t : List Char) :
    extract_by_splitting t = splitMachine (t.splitOn '\n') (none, []) := by
  unfold extract_by_splitting
  simpa using splitGo_eq_machine (t.splitOn '\n') none [] []

theorem extract_by_splitting_bounds (t : List Char) (q : Question)
    (h : q ∈ extract_by_splitting t) :
    1 ≤ q.options.length ∧ q.options.length ≤ 4 := by
  rw [extract_by_splitting_eq_machine] at h
  exact splitMachine_bounds _ _ q h

/-- Claim C8: every record in every QuestionSet the extractor returns
has between 0 and 4 options inclusive - on the pattern-cascade path
(`options[:4]` at emission), on the line-scan fallback path
(`current_options[:4]` at emission), and in both diagnostic placeholder
records (exactly 4 fixed options each). -/
theorem every_record_has_at_most_four_options
    (inp : Except (List Char) (List Char)) (q : Question)
    (h : q ∈ extract_questions_from_pdf inp) :
    0 ≤ q.options.length ∧ q.options.length ≤ 4 := by
  refine ⟨Nat.zero_le _, ?_⟩
  cases inp with
  | error e =>
      simp only [extract_questions_from_pdf, List.mem_singleton] at h
      rw [h]
      simp [errorPlaceholder]
  | ok t =>
      simp only [extract_questions_from_pdf] at h
      simp only [extract_questions_from_text] at h
      split at h
      · exact (extract_by_splitting_bounds t q (List.take_subset _ _ h)).2
      · split at h
        · rw [List.mem_singleton.mp h]
          simp [noQuestionsPlaceholder]
        · exact processLoop_mem_imp (fun q => q.options.length ≤ 4)
            processMatch_options_le_four _ [] (by simp) q h

/-- Witness input for C8: a cascade-formatted document. -/
def c8t : List Char :=
  ("Q.9 what is the airspeed velocity\n1.african\n2.european\n3.unladen").data

/-- The record the extractor returns for `c8t`. -/
def c8q : Question :=
  ⟨("what is the airspeed velocity").data,
   [("african").data, ("european").data, ("unladen").data]⟩

/-- Witness for C8 at a concrete input. -/
theorem every_record_has_at_most_four_options_witness :
    c8q ∈ extract_questions_from_pdf (.ok c8t) ∧
    (0 ≤ c8q.options.length ∧ c8q.options.length ≤ 4) :=
  ⟨by decide, every_record_has_at_most_four_options (.ok c8t) c8q (by decide)⟩

/-- Claim C9: cascade-path option extraction applies the two option
patterns in source order (the `Ans`-marker form first, the bare
digit-delimiter form second), accepts the first one with at least 3
matches - each accepted option stripped and its newlines collapsed to
spaces - yields the empty list when neither reaches 3 matches, and the
emitted record keeps at most the first 4 accepted options. -/
theorem option_extraction_order_and_cap (ot : List Char)
    (m : List Char × List Char) (q : Question) :
    (extractOptions ot =
      match firstConfidentOptionPattern ot with
      | some p => (findall2 p ot).map (fun x => collapseNL (pyStrip x.2))
      | none => []) ∧
    (processMatch m = some q →
      q.options = (extractOptions (regionTexts m).2).take 4 ∧
      q.options.length ≤ 4) := by
  constructor
  · unfold firstConfidentOptionPattern extractOptions option_patterns optLoop
    by_cases hA : 3 ≤ (findall2 optPatA ot).length
    · have hAne : findall2 optPatA ot ≠ [] := by
        intro h0
        rw [h0] at hA
        exact absurd hA (by simp)
      rw [if_pos ⟨hAne, hA⟩, List.find?_cons_of_pos _ (by simpa using hA)]
    · rw [if_neg (by intro hand; exact hA hand.2),
        List.find?_cons_of_neg _ (by simpa using hA)]
      by_cases hB : 3 ≤ (findall2 optPatB ot).length
      · have hBne : findall2 optPatB ot ≠ [] := by
          intro h0
          rw [h0] at hB
          exact absurd hB (by simp)
        rw [optLoop, if_pos ⟨hBne, hB⟩,
          List.find?_cons_of_pos _ (by simpa using hB)]
      · rw [optLoop, if_neg (by intro hand; exact hB hand.2),
          List.find?_cons_of_neg _ (by simpa using hB)]
        rfl
  · intro hpm
    rw [processMatch_some m q hpm]
    exact ⟨rfl, List.length_take_le _ _⟩

/-- Witness inputs for C9: an options text and a full region. -/
def c9ot : List Char := ("1.alpha\n2.beta\n3.gamma").data

def c9m : List Char × List Char :=
  (("2").data, ("which greek letter comes first\n1.alpha\n2.beta\n3.gamma").data)

def c9q : Question :=
  ⟨("which greek letter comes first").data,
   [("alpha").data, ("beta").data, ("gamma").data]⟩

/-- Witness for C9 at a concrete region. -/
theorem option_extraction_order_and_cap_witness :
    processMatch c9m = some c9q ∧
    (c9q.options = (extractOptions (regionTexts c9m).2).take 4 ∧
     c9q.options.length ≤ 4) :=
  ⟨by decide, (option_extraction_order_and_cap c9ot c9m c9q).2 (by decide)⟩

/-- Claim C10: every record emitted by the line-scan fallback extractor
has at least one option: both emission sites (question-start line and
end of input) are guarded by `current_options` being non-empty, and
`[:4]` of a non-empty list is non-empty. -/
theorem fallback_records_have_an_option (t : List Char) (q : Question)
    (h : q ∈ extract_by_splitting t) : 1 ≤ q.options.length :=
  (extract_by_splitting_bounds t q h).1

/-- Witness input for C10. -/
def c10t : List Char :=
  ("Q 2 why is the sky blue\n1.rayleigh scattering\n2.mie scattering").data

/-- The record the fallback emits for `c10t`. -/
def c10q : Question :=
  ⟨("why is the sky blue").data,
   [("rayleigh scattering").data, ("mie scattering").data]⟩

/-- Witness for C10 at a concrete input. -/
theorem fallback_records_have_an_option_witness :
    c10q ∈ extract_by_splitting c10t ∧ 1 ≤ c10q.options.length :=
  ⟨by decide, fallback_records_have_an_option c10t c10q (by decide)⟩
